import Mathlib

/-!
A shallow embedding of scitacean's generated dataset / model layer.

The repository generates its model classes from jinja templates
(`tools/model-generation/templates/model.py.jinja`, which contains the
current "Base class for Dataset" template, and the model template) driven
by a field specification extracted from a SciCat schema and customized by
`tools/model-generation/spec/dataset-fields.yml` and
`tools/model-generation/spec/field-validations.yml`.

The embedding models the code that the templates emit, as a function of an
arbitrary field-specification list (`GenFieldSpec`), since the concrete
field table is produced from a live schema fetch and is not part of the
repository.  External collaborators (dateutil's ISO parser, `PID.parse`,
`RemotePath`, `hashlib.algorithms_available`, the wall clock, and the
sub-model converters) are supplied through a `PyEnv` record of
uninterpreted functions.  Python dicts are modelled as insertion logs
(association lists where the last entry for a key wins).
-/

namespace Scitacean

/-- A Python `datetime`: a timestamp plus an optional timezone
(`none` = naive, `some off` = fixed offset in seconds; UTC is `some 0`). -/
structure PyDatetime where
  tstamp : Int
  tzoffset : Option Int
deriving Repr, DecidableEq

/-- Python values flowing through the dataset fields.  Objects whose
structure the claims never inspect (PIDs, remote paths, sub-model lists)
are represented by `vobj` with a tag. -/
inductive Value where
  | vnone
  | vstr (s : String)
  | vint (n : Int)
  | vdatetime (d : PyDatetime)
  | vobj (tag : String) (payload : String)
deriving Repr, DecidableEq

/-- `DatasetType` enum from `_base_model.py` with values `"raw"` and `"derived"`. -/
inductive DatasetType where
  | raw
  | derived
deriving Repr, DecidableEq

/-- Argument accepted by `DatasetBase.__init__` for `type`:
`DatasetType | Literal["raw", "derived"]` (any string at runtime). -/
inductive DatasetTypeArg where
  | dt (t : DatasetType)
  | lit (s : String)
deriving Repr, DecidableEq

/-- `DatasetType(type)`: the Python enum constructor; raises `ValueError`
for a string that is not a member value. -/
def DatasetType.coerce : DatasetTypeArg → Except String DatasetType
  | .dt t => .ok t
  | .lit "raw" => .ok .raw
  | .lit "derived" => .ok .derived
  | .lit s => .error ("ValueError: " ++ s ++ " is not a valid DatasetType")

/-- The conversion functions named in `dataset-fields.yml` `conversions`. -/
inductive ConvKind where
  | parse_datetime
  | parse_pid
  | parse_remote_path
deriving Repr, DecidableEq

/-- Field information available to the templates for one generated dataset
field (an element of `spec.user_dset_fields(manual=False)`). -/
structure GenFieldSpec where
  name : String
  description : String
  required : Bool
  upload : Bool
  used_by_derived : Bool
  used_by_raw : Bool
  scicat_name : String
  schemaType : String
  default : Value
  conversion : Option ConvKind
  validation : Option String
deriving Repr, DecidableEq

/-- External collaborators of the generated code, as uninterpreted
functions: the wall clock, `dateutil.parser.parse`, `PID.parse`,
`RemotePath(...)`, `hashlib.algorithms_available`, and the sub-model
converters used by `_convert_download_fields_in_place`. -/
structure PyEnv where
  clock : Int
  parseISO : String → Except String PyDatetime
  pidParse : Value → Except String Value
  remotePathNew : Value → Except String Value
  algorithms_available : List String
  listItemFromDownload : String → Value → Except String Value
  lifecycleFromDownload : Value → Except String Value

/-- `datetime.now(tz=timezone.utc)`: the current time with UTC timezone. -/
def datetime_now_utc (clock : Int) : PyDatetime := { tstamp := clock, tzoffset := some 0 }

/-- `_parse_datetime` from `model.py.jinja` (lines 98-103): a `datetime`
or `None` is returned unchanged, the string `"now"` becomes the current
UTC time, any other string goes through `dateutil.parser.parse`, and a
non-`str`, non-`datetime` value is a `TypeError` inside dateutil. -/
def parse_datetime (parseISO : String → Except String PyDatetime) (clock : Int) :
    Value → Except String Value
  | .vdatetime d => .ok (.vdatetime d)
  | .vnone => .ok .vnone
  | .vstr s =>
    if s = "now" then .ok (.vdatetime (datetime_now_utc clock))
    else (parseISO s).map .vdatetime
  | v => .error ("TypeError: cannot parse " ++ reprStr v ++ " as datetime")

/-- `_parse_pid`: `None` is returned unchanged, otherwise `PID.parse`
(defined in `pid.py`, outside the templates) is applied. -/
def parse_pid (pidParse : Value → Except String Value) : Value → Except String Value
  | .vnone => .ok .vnone
  | v => pidParse v

/-- `_parse_remote_path`: `None` is returned unchanged, otherwise the
value is wrapped by the `RemotePath` constructor. -/
def parse_remote_path (remotePathNew : Value → Except String Value) :
    Value → Except String Value
  | .vnone => .ok .vnone
  | v => remotePathNew v

/-- `_validate_checksum_algorithm` from `model.py.jinja` (lines 118-125):
`None` passes through; a string not in `hashlib.algorithms_available`
raises `ValueError`; a recognized name is returned unchanged. -/
def validate_checksum_algorithm (available : List String) :
    Option String → Except String (Option String)
  | none => .ok none
  | some algorithm =>
    if algorithm ∈ available then .ok (some algorithm)
    else .error ("Checksum algorithm not recognized: " ++ algorithm)

/-- Dispatch a `ConvKind` to the corresponding conversion function. -/
def applyConversion (env : PyEnv) : ConvKind → Value → Except String Value
  | .parse_datetime => parse_datetime env.parseISO env.clock
  | .parse_pid => parse_pid env.pidParse
  | .parse_remote_path => parse_remote_path env.remotePathNew

/-- The `field_assignment` macro: `self._f = f` when the field has no
conversion, `self._f = conv.func(f)` otherwise. -/
def convertFieldValue (env : PyEnv) (f : GenFieldSpec) (v : Value) : Except String Value :=
  match f.conversion with
  | none => .ok v
  | some c => applyConversion env c v

/-- Lexicographic comparison of character lists by code point. -/
def charListLe : List Char → List Char → Bool
  | [], _ => true
  | _ :: _, [] => false
  | a :: as, b :: bs =>
    if a.toNat < b.toNat then true
    else if b.toNat < a.toNat then false
    else charListLe as bs

/-- Lexicographic string comparison (the order used by the jinja
`sort(attribute="name")` filter). -/
def strLe (a b : String) : Bool := charListLe a.data b.data

/-- Insert a field into a list sorted by `name` (ordering step of the
jinja `sort(attribute="name")` filter; only the ordering matters below). -/
def insertByName (f : GenFieldSpec) : List GenFieldSpec → List GenFieldSpec
  | [] => [f]
  | g :: gs => if strLe f.name g.name then f :: g :: gs else g :: insertByName f gs

/-- Sort a field list by `name`, as the templates do before emitting code. -/
def sortByName : List GenFieldSpec → List GenFieldSpec
  | [] => []
  | f :: fs => insertByName f (sortByName fs)

/-- The runtime `DatasetBase.Field` dataclass generated into `_FIELD_SPEC`
(`model.py.jinja` lines 129-145; the Python `type` object is kept as the
source text of the emitted type expression). -/
structure Field where
  name : String
  description : String
  read_only : Bool
  required : Bool
  scicat_name : String
  ftype : String
  used_by_derived : Bool
  used_by_raw : Bool
deriving Repr, DecidableEq

/-- `DatasetBase.Field.used_by` (`model.py.jinja` lines 140-145). -/
def Field.used_by (f : Field) (dataset_type : DatasetType) : Bool :=
  if dataset_type = DatasetType.raw then f.used_by_raw else f.used_by_derived

/-- `field_type_spec` macro: the user-facing type with `NonNegativeInt`
replaced by `int`, and `None` rendered as `type(None)`. -/
def field_type_spec (s : String) : String :=
  let ty := s.replace "NonNegativeInt" "int"
  if ty = "None" then "type(None)" else ty

/-- Modelled from the spec: the generator library (not under `src/`)
computes each field's rendered type; `field-validations.yml` states that
the `size` validation "is realized by replacing the field's type with
`NonNegativeInt`", so a field tagged `size` is rendered as
`NonNegativeInt` and any other field keeps its schema type. -/
def full_type_for (f : GenFieldSpec) : String :=
  if f.validation = some "size" then "NonNegativeInt" else f.schemaType

/-- The hard-coded first `_FIELD_SPEC` entry for `type`
(`model.py.jinja` lines 148-157). -/
def typeFieldEntry : Field :=
  { name := "type"
    description := "Characterize type of dataset, either 'raw' or 'derived'. Autofilled when choosing the proper inherited models."
    read_only := false
    required := true
    scicat_name := "type"
    ftype := "DatasetType"
    used_by_derived := true
    used_by_raw := true }

/-- One generated `_FIELD_SPEC` entry (`model.py.jinja` lines 158-169):
`read_only = not field.upload`, and `used_by_* = field.used_by_* or not
field.upload`. -/
def genField (f : GenFieldSpec) : Field :=
  { name := f.name
    description := f.description
    read_only := !f.upload
    required := f.required
    scicat_name := f.scicat_name
    ftype := field_type_spec (full_type_for f)
    used_by_derived := f.used_by_derived || !f.upload
    used_by_raw := f.used_by_raw || !f.upload }

/-- The full generated `_FIELD_SPEC` list: the `type` entry followed by
the regular fields sorted by name. -/
def FIELD_SPEC (spec : List GenFieldSpec) : List Field :=
  typeFieldEntry :: (sortByName spec).map genField

/-- The parameter names of the generated `DatasetBase.__init__`
(`model.py.jinja` lines 183-190): `type`, one parameter per uploadable
field in name order, then `meta` and `checksum_algorithm`. -/
def init_params (spec : List GenFieldSpec) : List String :=
  "type" :: ((sortByName spec).filter (·.upload)).map (·.name)
    ++ ["meta", "checksum_algorithm"]

/-- The sequence of `self._f = ...` assignments for uploadable fields in
`__init__` (`model.py.jinja` lines 192-194), in template order; a raised
conversion error aborts the remaining assignments.  An argument of `none`
means the caller did not pass the parameter, so its declared default
applies. -/
def uploadAssignments (env : PyEnv) :
    List GenFieldSpec → (String → Option Value) → Except String (List (String × Value))
  | [], _ => .ok []
  | f :: fs, args => do
    let v ← convertFieldValue env f ((args f.name).getD f.default)
    let rest ← uploadAssignments env fs args
    pure (("_" ++ f.name, v) :: rest)

/-- The `self._f = None` assignments for the non-uploadable fields
(`model.py.jinja` lines 195-197). -/
def readOnlyAssignments (spec : List GenFieldSpec) : List (String × Value) :=
  ((sortByName spec).filter (fun f => !f.upload)).map (fun f => ("_" ++ f.name, Value.vnone))

/-- The state of a freshly constructed `DatasetBase`: the `_type` slot,
the per-field `_name` slots in assignment order, `_meta`, and
`_default_checksum_algorithm` (`_orig_datablocks` and `_attachments` are
always initialized to empty lists and are omitted). -/
structure DatasetState where
  dtype : DatasetType
  slots : List (String × Value)
  meta : List (String × Value)
  default_checksum_algorithm : Option String
deriving Repr, DecidableEq

/-- The generated `DatasetBase.__init__` (`model.py.jinja` lines
183-203): coerce `type`, assign converted uploadable fields, set the
read-only slots to `None`, store `meta or {}` and the validated checksum
algorithm. -/
def dataset_init (env : PyEnv) (spec : List GenFieldSpec) (targ : DatasetTypeArg)
    (args : String → Option Value) (meta : Option (List (String × Value)))
    (checksum_algorithm : Option String) : Except String DatasetState := do
  let t ← DatasetType.coerce targ
  let ua ← uploadAssignments env ((sortByName spec).filter (·.upload)) args
  let ca ← validate_checksum_algorithm env.algorithms_available checksum_algorithm
  pure { dtype := t
         slots := ua ++ readOnlyAssignments spec
         meta := meta.getD []
         default_checksum_algorithm := ca }

/-- Final value of an attribute slot: the last assignment wins. -/
def finalSlot (slots : List (String × Value)) (k : String) : Option Value :=
  (slots.reverse.find? (fun p => p.1 = k)).map (·.2)

/-- `dict.get(k)` on an insertion log: the last entry wins, absent keys
give `None`. -/
def dictGet (l : List (String × Value)) (k : String) : Value :=
  ((l.reverse.find? (fun p => p.1 = k)).map (·.2)).getD Value.vnone

/-- `d[k] = v` on an insertion log. -/
def dictSet (l : List (String × Value)) (k : String) (v : Value) : List (String × Value) :=
  l ++ [(k, v)]

/-- The keys of an insertion log (with multiplicity; membership is what
matters below). -/
def dictKeys (l : List (String × Value)) : List String :=
  l.map (·.1)

/-- Modelled from the spec: `dataset-fields.yml` lists `version` and
`pid` under `extra_read_only`, fields the generator (not under `src/`)
forces to be read-only in addition to those identified from the schema. -/
def extra_read_only : List String := ["version", "pid"]

/-- A generated `@property` of `DatasetBase`: its name and whether a
setter is emitted. -/
structure PropertyDef where
  pname : String
  hasSetter : Bool
deriving Repr, DecidableEq

/-- The properties emitted on `DatasetBase` (`model.py.jinja` lines
205-231): one getter per field in name order with a setter exactly for
uploadable fields, then `meta` (getter and setter) and `type` (getter
only). -/
def generated_properties (spec : List GenFieldSpec) : List PropertyDef :=
  (sortByName spec).map (fun f => { pname := f.name, hasSetter := f.upload })
    ++ [{ pname := "meta", hasSetter := true }, { pname := "type", hasSetter := false }]

/-- Outcome of `setattr` on a generated dataset object. -/
inductive SetAttrOutcome where
  | ok
  | attributeError
deriving Repr, DecidableEq

/-- Python attribute assignment on a slotted class whose attributes are
properties: assigning to a property without a setter, or to a name that
is not an attribute at all, raises `AttributeError`. -/
def setattr_result (props : List PropertyDef) (attr : String) : SetAttrOutcome :=
  match props.find? (fun p => p.pname = attr) with
  | some p => if p.hasSetter then .ok else .attributeError
  | none => .attributeError

/-- Which pydantic model a declaration is generated for. -/
inductive ModelKind where
  | download
  | upload
deriving Repr, DecidableEq

/-- A generated pydantic model field declaration. -/
structure ModelField where
  pyName : String
  aliasName : Option String
  ftype : String
  hasDefaultNone : Bool
deriving Repr, DecidableEq

/-- `s.startswith("_")`: whether the first character is an underscore. -/
def startsWithUnderscore (s : String) : Bool :=
  match s.data with
  | [] => false
  | c :: _ => c = '_'

/-- The attribute name a field gets in the generated pydantic models: the
SciCat name, with a single leading underscore stripped (such fields are
declared through an alias). -/
def pyNameOf (f : GenFieldSpec) : String :=
  if startsWithUnderscore f.scicat_name then f.scicat_name.drop 1 else f.scicat_name

/-- The `model_field` macro of the model template (`part_001` lines
19-25): a field whose SciCat name starts with `_` is declared under the
stripped name with an alias; the declaration carries `= None` exactly
when the field is not required or the model is a download model. -/
def model_field (kind : ModelKind) (f : GenFieldSpec) : ModelField :=
  { pyName := pyNameOf f
    aliasName := if startsWithUnderscore f.scicat_name then some f.scicat_name else none
    ftype := full_type_for f
    hasDefaultNone := !f.required || decide (kind = ModelKind.download) }

/-- pydantic validation of one value against the declared type text: a
`NonNegativeInt` field rejects negative integers and non-integers but
lets `None` through (the declaration is `Optional`); other types are not
interpreted here. -/
def validate_typed (ty : String) (v : Value) : Except String Value :=
  if ty = "NonNegativeInt" then
    match v with
    | .vint n =>
      if n < 0 then .error "ValidationError: input should be greater than or equal to 0"
      else .ok v
    | .vnone => .ok v
    | _ => .error "ValidationError: input should be a valid integer"
  else .ok v

/-- Validate all declared fields in order, stopping at the first failing
value. -/
def collectVals (g : ModelField → Except String (String × Value)) :
    List ModelField → Except String (List (String × Value))
  | [] => .ok []
  | m :: ms => do
    let v ← g m
    let rest ← collectVals g ms
    pure (v :: rest)

/-- The declared fields without a default whose value is not supplied:
pydantic reports each of these as a missing-field error. -/
def missing_fields (mfs : List ModelField) (provided : String → Option Value) :
    List ModelField :=
  mfs.filter (fun m => !m.hasDefaultNone && (provided m.pyName).isNone)

/-- pydantic model construction for a generated model: every field
declared without a default that is not supplied is reported as missing
(by its attribute name); otherwise each field takes the supplied value,
or `None` from its default, subject to type validation.  (pydantic
aggregates all errors in one `ValidationError`; the missing-field errors
are modelled first, then the first type error.) -/
def pydantic_init (mfs : List ModelField) (provided : String → Option Value) :
    Except (List String) (List (String × Value)) :=
  if (missing_fields mfs provided).isEmpty then
    (collectVals
      (fun m => (validate_typed m.ftype ((provided m.pyName).getD Value.vnone)).map
        (fun v => (m.pyName, v))) mfs).mapError (fun e => [e])
  else .error ((missing_fields mfs provided).map (·.pyName))

/-- Modelled from the spec: `dset_spec.dset_fields_for("upload", t)` of
the generator library (not under `src/`) selects, for the
`UploadRawDataset` / `UploadDerivedDataset` classes, the writable fields
used by the given dataset type, per the spec's "selects only writable
fields" and the `used_by_raw`/`used_by_derived` flags. -/
def dset_fields_for_upload (spec : List GenFieldSpec) (t : DatasetType) : List GenFieldSpec :=
  spec.filter (fun f =>
    f.upload && (if t = DatasetType.raw then f.used_by_raw else f.used_by_derived))

/-- The field declarations of the generated `UploadRawDataset` /
`UploadDerivedDataset` (`part_001` lines 116-124). -/
def upload_dataset_model_fields (spec : List GenFieldSpec) (t : DatasetType) :
    List ModelField :=
  (dset_fields_for_upload spec t).map (model_field .upload)

/-- The validations table of `field-validations.yml`, as
(model, SciCat field name, validation) triples in file order. -/
def field_validations : List (String × String × String) :=
  [ ("Attachment", "createdAt", "datetime")
  , ("Attachment", "updatedAt", "datetime")
  , ("Dataset", "creationTime", "datetime")
  , ("Dataset", "createdAt", "datetime")
  , ("Dataset", "endTime", "datetime")
  , ("Dataset", "updatedAt", "datetime")
  , ("Dataset", "contactEmail", "emails")
  , ("Dataset", "ownerEmail", "emails")
  , ("Dataset", "numberOfFiles", "size")
  , ("Dataset", "numberOfFilesArchived", "size")
  , ("Dataset", "packedSize", "size")
  , ("Dataset", "size", "size")
  , ("Dataset", "orcidOfOwner", "orcids")
  , ("Dataset", "history", "drop")
  , ("DataFile", "time", "datetime")
  , ("DataFile", "size", "size")
  , ("Datablock", "createdAt", "datetime")
  , ("Datablock", "updatedAt", "datetime")
  , ("Datablock", "packedSize", "size")
  , ("Datablock", "size", "size")
  , ("Lifecycle", "archiveRetentionTime", "datetime")
  , ("Lifecycle", "dateOfDiskPurging", "datetime")
  , ("Lifecycle", "dateOfPublishing", "datetime")
  , ("Lifecycle", "publishedOn", "datetime")
  , ("History", "createdAt", "datetime")
  , ("History", "updatedAt", "datetime")
  , ("OrigDatablock", "createdAt", "datetime")
  , ("OrigDatablock", "updatedAt", "datetime")
  , ("OrigDatablock", "size", "size")
  , ("Sample", "createdAt", "datetime")
  , ("Sample", "updatedAt", "datetime") ]

/-- The (model, field) pairs tagged `size` in `field-validations.yml`. -/
def sizeTagged : List (String × String) :=
  (field_validations.filter (fun e => e.2.2 = "size")).map (fun e => (e.1, e.2.1))

/-- The partitioning loop of `DatasetBase._prepare_fields_from_download`
(`model.py.jinja` lines 237-245): read-only fields go into `read_only`
under `"_" + name` (via an unconditional `getattr`, which raises if the
attribute is absent), writable fields go into `init_args` under their
name if the download model has the attribute. -/
def prepare_loop (dm : String → Option Value) :
    List Field → Except String (List (String × Value) × List (String × Value))
  | [] => .ok ([], [])
  | f :: fs =>
    if f.read_only then
      match dm f.scicat_name with
      | none => .error ("AttributeError: " ++ f.scicat_name)
      | some v =>
        (prepare_loop dm fs).map (fun (ia, ro) => (ia, ("_" ++ f.name, v) :: ro))
    else
      match dm f.scicat_name with
      | none => prepare_loop dm fs
      | some v =>
        (prepare_loop dm fs).map (fun (ia, ro) => ((f.name, v) :: ia, ro))

/-- `_list_field_from_download` (`model.py.jinja` lines 275-283): `None`
maps to `None`, otherwise each list item is converted through the user
model's `from_download_model` (outside the templates, abstracted by the
environment). -/
def list_field_from_download (itemConv : Value → Except String Value) :
    Value → Except String Value
  | .vnone => .ok .vnone
  | v => itemConv v

/-- `DatasetBase._convert_readonly_fields_in_place` (`model.py.jinja`
lines 252-259): for every read-only field with a conversion, in name
order, the stored value is converted in place when it is present and not
`None`. -/
def convert_readonly_fields_in_place (env : PyEnv) :
    List GenFieldSpec → List (String × Value) → Except String (List (String × Value))
  | [], ro => .ok ro
  | f :: fs, ro =>
    if dictGet ro ("_" ++ f.name) = Value.vnone then
      convert_readonly_fields_in_place env fs ro
    else do
      let v ← convertFieldValue env f (dictGet ro ("_" ++ f.name))
      convert_readonly_fields_in_place env fs (dictSet ro ("_" ++ f.name) v)

/-- `_convert_download_fields_in_place` (`model.py.jinja` lines 262-272):
convert the `techniques` and `relationships` entries of `init_args`, the
read-only conversions, and the `_lifecycle` entry of `read_only`. -/
def convert_download_fields_in_place (env : PyEnv) (spec : List GenFieldSpec)
    (ia ro : List (String × Value)) :
    Except String (List (String × Value) × List (String × Value)) := do
  let tv ← list_field_from_download (env.listItemFromDownload "techniques")
    (dictGet ia "techniques")
  let rv ← list_field_from_download (env.listItemFromDownload "relationships")
    (dictGet (dictSet ia "techniques" tv) "relationships")
  let ro2 ← convert_readonly_fields_in_place env
    ((sortByName spec).filter (fun f => f.conversion.isSome && !f.upload)) ro
  if dictGet ro2 "_lifecycle" = Value.vnone then
    pure (dictSet (dictSet ia "techniques" tv) "relationships" rv, ro2)
  else do
    let lv ← env.lifecycleFromDownload (dictGet ro2 "_lifecycle")
    pure (dictSet (dictSet ia "techniques" tv) "relationships" rv,
      dictSet ro2 "_lifecycle" lv)

/-- `getattr(download_model, attr)`: raises `AttributeError` when the
model has no such attribute. -/
def getattr_or_raise (dm : String → Option Value) (attr : String) : Except String Value :=
  match dm attr with
  | none => .error ("AttributeError: " ++ attr)
  | some v => .ok v

/-- `DatasetBase._prepare_fields_from_download` (`model.py.jinja` lines
233-250): run the partitioning loop over `_FIELD_SPEC`, add
`init_args["meta"]` from `scientificMetadata`, then apply the in-place
download conversions. -/
def prepare_fields_from_download (env : PyEnv) (spec : List GenFieldSpec)
    (dm : String → Option Value) :
    Except String (List (String × Value) × List (String × Value)) := do
  let p ← prepare_loop dm (FIELD_SPEC spec)
  let sm ← getattr_or_raise dm "scientificMetadata"
  convert_download_fields_in_place env spec (dictSet p.1 "meta" sm) p.2

/-! ## Helper lemmas -/

theorem mem_insertByName {g f : GenFieldSpec} {l : List GenFieldSpec} :
    g ∈ insertByName f l ↔ g = f ∨ g ∈ l := by
  induction l with
  | nil => simp [insertByName]
  | cons h t ih =>
    by_cases hle : strLe f.name h.name = true
    · simp [insertByName, hle, List.mem_cons]
    · simp only [insertByName, if_neg hle, List.mem_cons, ih]
      tauto

theorem insertByName_perm (f : GenFieldSpec) (l : List GenFieldSpec) :
    List.Perm (insertByName f l) (f :: l) := by
  induction l with
  | nil => simp [insertByName]
  | cons h t ih =>
    by_cases hle : strLe f.name h.name = true
    · simp [insertByName, hle]
    · simp only [insertByName, if_neg hle]
      exact (ih.cons h).trans (List.Perm.swap f h t)

theorem sortByName_perm (l : List GenFieldSpec) : List.Perm (sortByName l) l := by
  induction l with
  | nil => simp [sortByName]
  | cons h t ih => exact (insertByName_perm h (sortByName t)).trans (ih.cons h)

theorem mem_sortByName {g : GenFieldSpec} {l : List GenFieldSpec} :
    g ∈ sortByName l ↔ g ∈ l :=
  (sortByName_perm l).mem_iff

theorem sortByName_names_nodup {l : List GenFieldSpec}
    (h : (l.map (·.name)).Nodup) : ((sortByName l).map (·.name)).Nodup :=
  (((sortByName_perm l).map (·.name)).nodup_iff).mpr h

theorem finalSlot_append {ua ra : List (String × Value)} {k : String} :
    finalSlot (ua ++ ra) k =
      match finalSlot ra k with
      | some v => some v
      | none => finalSlot ua k := by
  unfold finalSlot
  rw [List.reverse_append, List.find?_append]
  cases h : (ra.reverse.find? fun p => p.1 = k) <;> simp [h, Option.or]

theorem finalSlot_eq_none {l : List (String × Value)} {k : String}
    (h : k ∉ dictKeys l) : finalSlot l k = none := by
  unfold finalSlot
  rw [List.find?_eq_none.mpr, Option.map_none']
  intro p hp
  simp only [decide_eq_true_eq]
  intro hk
  exact h (hk ▸ List.mem_map_of_mem (·.1) (List.mem_reverse.mp hp))

theorem finalSlot_all_vnone {l : List (String × Value)} {k : String}
    (hv : ∀ p ∈ l, p.2 = Value.vnone) (hk : k ∈ dictKeys l) :
    finalSlot l k = some Value.vnone := by
  obtain ⟨p, hp, hpk⟩ := List.exists_of_mem_map hk
  have hsome : (l.reverse.find? fun q => q.1 = k).isSome := by
    rw [List.find?_isSome]
    exact ⟨p, List.mem_reverse.mpr hp, by simp [hpk]⟩
  obtain ⟨q, hq⟩ := Option.isSome_iff_exists.mp hsome
  have hqmem : q ∈ l := List.mem_reverse.mp (List.mem_of_find?_eq_some hq)
  unfold finalSlot
  rw [hq, Option.map_some', hv q hqmem]

theorem finalSlot_of_mem_nodup :
    ∀ {l : List (String × Value)} {k : String} {v : Value},
      (l.map (·.1)).Nodup → (k, v) ∈ l → l.find? (fun p => p.1 = k) = some (k, v)
  | [], _, _, _, hm => absurd hm (List.not_mem_nil _)
  | p :: t, k, v, hnd, hm => by
    rcases List.mem_cons.mp hm with he | ht
    · subst he
      simp [List.find?]
    · by_cases hk : p.1 = k
      · exfalso
        have hmem : p.1 ∈ t.map (·.1) := by
          rw [hk]
          exact List.mem_map_of_mem (·.1) ht
        exact (List.nodup_cons.mp hnd).1 hmem
      · rw [List.find?]
        simp only [hk, decide_False]
        exact finalSlot_of_mem_nodup (List.nodup_cons.mp hnd).2 ht

theorem finalSlot_eq_of_mem_nodup {l : List (String × Value)} {k : String} {v : Value}
    (hnd : (l.map (·.1)).Nodup) (hm : (k, v) ∈ l) : finalSlot l k = some v := by
  unfold finalSlot
  have hnd' : (l.reverse.map (·.1)).Nodup := by
    rw [List.map_reverse]
    exact List.nodup_reverse.mpr hnd
  rw [finalSlot_of_mem_nodup hnd' (List.mem_reverse.mpr hm), Option.map_some']

theorem ebind_ok {α β ε : Type} (a : α) (f : α → Except ε β) :
    (Except.ok a >>= f) = f a := rfl

theorem ebind_error {α β ε : Type} (e : ε) (f : α → Except ε β) :
    ((Except.error e : Except ε α) >>= f) = Except.error e := rfl

theorem emap_ok {α β ε : Type} (a : α) (f : α → β) :
    (f <$> (Except.ok a : Except ε α)) = Except.ok (f a) := rfl

theorem emap_error {α β ε : Type} (e : ε) (f : α → β) :
    (f <$> (Except.error e : Except ε α)) = (Except.error e : Except ε β) := rfl

theorem epure_eq {α ε : Type} (a : α) : (pure a : Except ε α) = Except.ok a := rfl

theorem except_map_ok {α β ε : Type} (a : α) (f : α → β) :
    Except.map f (Except.ok a : Except ε α) = Except.ok (f a) := rfl

theorem except_map_error {α β ε : Type} (e : ε) (f : α → β) :
    Except.map f (Except.error e : Except ε α) = (Except.error e : Except ε β) := rfl

theorem uploadAssignments_ok_cons {env : PyEnv} {f : GenFieldSpec}
    {fs : List GenFieldSpec} {args : String → Option Value}
    {ua : List (String × Value)}
    (h : uploadAssignments env (f :: fs) args = .ok ua) :
    ∃ v rest, convertFieldValue env f ((args f.name).getD f.default) = .ok v ∧
      uploadAssignments env fs args = .ok rest ∧ ua = ("_" ++ f.name, v) :: rest := by
  unfold uploadAssignments at h
  cases hv : convertFieldValue env f ((args f.name).getD f.default) with
  | error e => rw [hv, ebind_error] at h; exact Except.noConfusion h
  | ok v =>
    rw [hv, ebind_ok] at h
    cases hr : uploadAssignments env fs args with
    | error e =>
      rw [hr] at h
      simp only [emap_error, ebind_error] at h
      exact Except.noConfusion h
    | ok rest =>
      rw [hr] at h
      simp only [emap_ok, ebind_ok, epure_eq, Except.ok.injEq] at h
      exact ⟨v, rest, rfl, rfl, h.symm⟩

theorem uploadAssignments_keys {env : PyEnv} :
    ∀ {l : List GenFieldSpec} {args : String → Option Value} {ua : List (String × Value)},
      uploadAssignments env l args = .ok ua →
      ua.map (·.1) = l.map (fun f => "_" ++ f.name)
  | [], _, ua, h => by
    unfold uploadAssignments at h
    cases h
    rfl
  | f :: fs, args, ua, h => by
    obtain ⟨v, rest, _, hr, hua⟩ := uploadAssignments_ok_cons h
    subst hua
    simp only [List.map_cons, uploadAssignments_keys hr]

theorem uploadAssignments_mem {env : PyEnv} :
    ∀ {l : List GenFieldSpec} {args : String → Option Value} {ua : List (String × Value)},
      uploadAssignments env l args = .ok ua →
      ∀ f ∈ l, ∃ v, convertFieldValue env f ((args f.name).getD f.default) = .ok v ∧
        ("_" ++ f.name, v) ∈ ua
  | [], _, _, _, f, hf => absurd hf (List.not_mem_nil f)
  | g :: fs, args, ua, h, f, hf => by
    obtain ⟨v, rest, hv, hr, hua⟩ := uploadAssignments_ok_cons h
    subst hua
    rcases List.mem_cons.mp hf with he | ht
    · subst he
      exact ⟨v, hv, List.mem_cons_self _ _⟩
    · obtain ⟨w, hw, hwm⟩ := uploadAssignments_mem hr f ht
      exact ⟨w, hw, List.mem_cons_of_mem _ hwm⟩

theorem dataset_init_ok {env : PyEnv} {spec : List GenFieldSpec} {targ : DatasetTypeArg}
    {args : String → Option Value} {meta : Option (List (String × Value))}
    {cks : Option String} {st : DatasetState}
    (h : dataset_init env spec targ args meta cks = .ok st) :
    ∃ t ua ca, DatasetType.coerce targ = .ok t ∧
      uploadAssignments env ((sortByName spec).filter (·.upload)) args = .ok ua ∧
      validate_checksum_algorithm env.algorithms_available cks = .ok ca ∧
      st = { dtype := t
             slots := ua ++ readOnlyAssignments spec
             meta := meta.getD []
             default_checksum_algorithm := ca } := by
  unfold dataset_init at h
  cases hc : DatasetType.coerce targ with
  | error e => rw [hc, ebind_error] at h; exact Except.noConfusion h
  | ok t =>
    rw [hc, ebind_ok] at h
    cases ha : uploadAssignments env ((sortByName spec).filter (·.upload)) args with
    | error e =>
      rw [ha, ebind_error] at h
      exact Except.noConfusion h
    | ok ua =>
      rw [ha, ebind_ok] at h
      cases hv : validate_checksum_algorithm env.algorithms_available cks with
      | error e =>
        rw [hv] at h
        simp only [emap_error, ebind_error] at h
        exact Except.noConfusion h
      | ok ca =>
        rw [hv] at h
        simp only [emap_ok, ebind_ok, epure_eq, Except.ok.injEq] at h
        exact ⟨t, ua, ca, rfl, rfl, rfl, h.symm⟩

theorem dataset_init_eq {env : PyEnv} {spec : List GenFieldSpec} {targ : DatasetTypeArg}
    {args : String → Option Value} {meta : Option (List (String × Value))}
    {cks : Option String} {t : DatasetType} {ua : List (String × Value)}
    {ca : Option String}
    (hc : DatasetType.coerce targ = .ok t)
    (ha : uploadAssignments env ((sortByName spec).filter (·.upload)) args = .ok ua)
    (hv : validate_checksum_algorithm env.algorithms_available cks = .ok ca) :
    dataset_init env spec targ args meta cks =
      .ok { dtype := t
            slots := ua ++ readOnlyAssignments spec
            meta := meta.getD []
            default_checksum_algorithm := ca } := by
  unfold dataset_init
  rw [hc, ha, hv]
  rfl

theorem dataset_init_checksum_error {env : PyEnv} {spec : List GenFieldSpec}
    {targ : DatasetTypeArg} {args : String → Option Value}
    {meta : Option (List (String × Value))} {cks : Option String} {e : String}
    {t : DatasetType} {ua : List (String × Value)}
    (hc : DatasetType.coerce targ = .ok t)
    (ha : uploadAssignments env ((sortByName spec).filter (·.upload)) args = .ok ua)
    (hv : validate_checksum_algorithm env.algorithms_available cks = .error e) :
    dataset_init env spec targ args meta cks = .error e := by
  unfold dataset_init
  rw [hc, ha, hv]
  rfl

theorem collectVals_mem {g : ModelField → Except String (String × Value)} :
    ∀ {l : List ModelField} {out : List (String × Value)},
      collectVals g l = .ok out → ∀ m ∈ l, ∃ b, g m = .ok b ∧ b ∈ out
  | [], _, _, m, hm => absurd hm (List.not_mem_nil m)
  | m0 :: ms, out, h, m, hm => by
    unfold collectVals at h
    cases hv : g m0 with
    | error e => rw [hv, ebind_error] at h; exact Except.noConfusion h
    | ok b0 =>
      rw [hv, ebind_ok] at h
      cases hr : collectVals g ms with
      | error e =>
        rw [hr] at h
        simp only [emap_error, ebind_error] at h
        exact Except.noConfusion h
      | ok rest =>
        rw [hr] at h
        simp only [emap_ok, ebind_ok, epure_eq, Except.ok.injEq] at h
        subst h
        rcases List.mem_cons.mp hm with he | ht
        · subst he
          exact ⟨b0, hv, List.mem_cons_self _ _⟩
        · obtain ⟨b, hb, hbm⟩ := collectVals_mem hr m ht
          exact ⟨b, hb, List.mem_cons_of_mem _ hbm⟩

theorem collectVals_error_of_mem {g : ModelField → Except String (String × Value)} :
    ∀ {l : List ModelField} {m : ModelField} {e : String},
      m ∈ l → g m = .error e → ∃ e2, collectVals g l = .error e2
  | [], m, _, hm, _ => absurd hm (List.not_mem_nil m)
  | m0 :: ms, m, e, hm, hge => by
    unfold collectVals
    cases hv : g m0 with
    | error e0 => exact ⟨e0, by rw [ebind_error]⟩
    | ok b0 =>
      rcases List.mem_cons.mp hm with he | ht
      · subst he
        rw [hv] at hge
        exact Except.noConfusion hge
      · obtain ⟨e2, h2⟩ := collectVals_error_of_mem ht hge
        refine ⟨e2, ?_⟩
        rw [ebind_ok, h2]
        rfl

theorem validate_typed_vnone (ty : String) : validate_typed ty Value.vnone = .ok Value.vnone := by
  unfold validate_typed
  split <;> rfl

theorem prepare_loop_mem {dm : String → Option Value} :
    ∀ {fs : List Field} {ia0 ro0 : List (String × Value)},
      prepare_loop dm fs = .ok (ia0, ro0) →
      ∀ f ∈ fs,
        (f.read_only = true → ∃ v, dm f.scicat_name = some v ∧ ("_" ++ f.name, v) ∈ ro0) ∧
        (f.read_only = false → ∀ v, dm f.scicat_name = some v → (f.name, v) ∈ ia0)
  | [], _, _, _, f, hf => absurd hf (List.not_mem_nil f)
  | g :: gs, ia0, ro0, h, f, hf => by
    unfold prepare_loop at h
    by_cases hro : g.read_only
    · rw [if_pos hro] at h
      cases hdm : dm g.scicat_name with
      | none =>
        simp only [hdm] at h
        exact Except.noConfusion h
      | some v =>
        simp only [hdm] at h
        cases hr : prepare_loop dm gs with
        | error e =>
          rw [hr, except_map_error] at h
          exact Except.noConfusion h
        | ok p =>
          obtain ⟨ia1, ro1⟩ := p
          rw [hr, except_map_ok] at h
          simp only [Except.ok.injEq, Prod.mk.injEq] at h
          obtain ⟨hia, hro1⟩ := h
          rcases List.mem_cons.mp hf with he | ht
          · subst he
            refine ⟨fun _ => ⟨v, hdm, ?_⟩, fun hcon => absurd hro (by simp [hcon])⟩
            rw [← hro1]
            exact List.mem_cons_self _ _
          · have ih := prepare_loop_mem hr f ht
            refine ⟨fun hf1 => ?_, fun hf0 v0 hv0 => ?_⟩
            · obtain ⟨w, hw, hwm⟩ := ih.1 hf1
              exact ⟨w, hw, by rw [← hro1]; exact List.mem_cons_of_mem _ hwm⟩
            · rw [← hia]
              exact ih.2 hf0 v0 hv0
    · rw [if_neg hro] at h
      cases hdm : dm g.scicat_name with
      | none =>
        simp only [hdm] at h
        rcases List.mem_cons.mp hf with he | ht
        · subst he
          exact ⟨fun hc => absurd hc (by simpa using hro),
            fun _ v0 hv0 => absurd hv0 (by rw [hdm]; exact fun hx => Option.noConfusion hx)⟩
        · exact prepare_loop_mem h f ht
      | some v =>
        simp only [hdm] at h
        cases hr : prepare_loop dm gs with
        | error e =>
          rw [hr, except_map_error] at h
          exact Except.noConfusion h
        | ok p =>
          obtain ⟨ia1, ro1⟩ := p
          rw [hr, except_map_ok] at h
          simp only [Except.ok.injEq, Prod.mk.injEq] at h
          obtain ⟨hia, hro1⟩ := h
          rcases List.mem_cons.mp hf with he | ht
          · subst he
            refine ⟨fun hc => absurd hc (by simpa using hro), fun _ v0 hv0 => ?_⟩
            rw [hdm] at hv0
            cases hv0
            rw [← hia]
            exact List.mem_cons_self _ _
          · have ih := prepare_loop_mem hr f ht
            refine ⟨fun hf1 => ?_, fun hf0 v0 hv0 => ?_⟩
            · obtain ⟨w, hw, hwm⟩ := ih.1 hf1
              exact ⟨w, hw, hro1 ▸ hwm⟩
            · rw [← hia]
              exact List.mem_cons_of_mem _ (ih.2 hf0 v0 hv0)

theorem dictKeys_dictSet {l : List (String × Value)} {k k2 : String} {v : Value}
    (h : k ∈ dictKeys l) : k ∈ dictKeys (dictSet l k2 v) := by
  unfold dictKeys dictSet at *
  rw [List.map_append]
  exact List.mem_append_left _ h

theorem convert_readonly_keys_mono {env : PyEnv} :
    ∀ {fs : List GenFieldSpec} {ro ro2 : List (String × Value)} {k : String},
      convert_readonly_fields_in_place env fs ro = .ok ro2 →
      k ∈ dictKeys ro → k ∈ dictKeys ro2
  | [], ro, ro2, k, h, hk => by
    unfold convert_readonly_fields_in_place at h
    cases h
    exact hk
  | f :: fs, ro, ro2, k, h, hk => by
    unfold convert_readonly_fields_in_place at h
    by_cases hx : dictGet ro ("_" ++ f.name) = Value.vnone
    · rw [if_pos hx] at h
      exact convert_readonly_keys_mono h hk
    · rw [if_neg hx] at h
      cases hv : convertFieldValue env f (dictGet ro ("_" ++ f.name)) with
      | error e => rw [hv, ebind_error] at h; exact Except.noConfusion h
      | ok v =>
        rw [hv, ebind_ok] at h
        exact convert_readonly_keys_mono h (dictKeys_dictSet hk)

theorem convert_download_keys_mono {env : PyEnv} {spec : List GenFieldSpec}
    {ia ro ia2 ro2 : List (String × Value)}
    (h : convert_download_fields_in_place env spec ia ro = .ok (ia2, ro2)) :
    (∀ k ∈ dictKeys ia, k ∈ dictKeys ia2) ∧ (∀ k ∈ dictKeys ro, k ∈ dictKeys ro2) := by
  unfold convert_download_fields_in_place at h
  cases ht : list_field_from_download (env.listItemFromDownload "techniques")
      (dictGet ia "techniques") with
  | error e => rw [ht, ebind_error] at h; exact Except.noConfusion h
  | ok tv =>
    rw [ht, ebind_ok] at h
    cases hr : list_field_from_download (env.listItemFromDownload "relationships")
        (dictGet (dictSet ia "techniques" tv) "relationships") with
    | error e => rw [hr, ebind_error] at h; exact Except.noConfusion h
    | ok rv =>
      rw [hr, ebind_ok] at h
      cases hc : convert_readonly_fields_in_place env
          ((sortByName spec).filter (fun f => f.conversion.isSome && !f.upload)) ro with
      | error e => rw [hc, ebind_error] at h; exact Except.noConfusion h
      | ok ro1 =>
        rw [hc, ebind_ok] at h
        by_cases hlc : dictGet ro1 "_lifecycle" = Value.vnone
        · rw [if_pos hlc] at h
          simp only [epure_eq, Except.ok.injEq, Prod.mk.injEq] at h
          obtain ⟨hia2, hro2⟩ := h
          subst hia2; subst hro2
          exact ⟨fun k hk => dictKeys_dictSet (dictKeys_dictSet hk),
            fun k hk => convert_readonly_keys_mono hc hk⟩
        · rw [if_neg hlc] at h
          cases hlv : env.lifecycleFromDownload (dictGet ro1 "_lifecycle") with
          | error e => rw [hlv, ebind_error] at h; exact Except.noConfusion h
          | ok lv =>
            rw [hlv, ebind_ok] at h
            simp only [epure_eq, Except.ok.injEq, Prod.mk.injEq] at h
            obtain ⟨hia2, hro2⟩ := h
            subst hia2; subst hro2
            exact ⟨fun k hk => dictKeys_dictSet (dictKeys_dictSet hk),
              fun k hk => dictKeys_dictSet (convert_readonly_keys_mono hc hk)⟩

theorem getattr_or_raise_ok {dm : String → Option Value} {attr : String} {v : Value} :
    getattr_or_raise dm attr = .ok v ↔ dm attr = some v := by
  unfold getattr_or_raise
  cases h : dm attr <;> simp

theorem prepare_fields_ok {env : PyEnv} {spec : List GenFieldSpec}
    {dm : String → Option Value} {ia ro : List (String × Value)}
    (h : prepare_fields_from_download env spec dm = .ok (ia, ro)) :
    ∃ ia0 ro0 sm, prepare_loop dm (FIELD_SPEC spec) = .ok (ia0, ro0) ∧
      dm "scientificMetadata" = some sm ∧
      convert_download_fields_in_place env spec (dictSet ia0 "meta" sm) ro0 = .ok (ia, ro) := by
  unfold prepare_fields_from_download at h
  cases hl : prepare_loop dm (FIELD_SPEC spec) with
  | error e => rw [hl, ebind_error] at h; exact Except.noConfusion h
  | ok p =>
    obtain ⟨ia0, ro0⟩ := p
    rw [hl, ebind_ok] at h
    cases hsm : getattr_or_raise dm "scientificMetadata" with
    | error e => rw [hsm, ebind_error] at h; exact Except.noConfusion h
    | ok sm =>
      rw [hsm, ebind_ok] at h
      exact ⟨ia0, ro0, sm, rfl, getattr_or_raise_ok.mp hsm, h⟩

/-! ## Concrete fixtures used to evaluate the definitions -/

/-- A concrete environment: fixed clock, an ISO parser that rejects
everything, identity PID / remote-path / sub-model converters, and a
typical `hashlib.algorithms_available`. -/
def env0 : PyEnv :=
  { clock := 1700000000
    parseISO := fun s => .error ("ParserError: " ++ s)
    pidParse := fun v => .ok v
    remotePathNew := fun v => .ok v
    algorithms_available := ["blake2b", "md5", "sha256"]
    listItemFromDownload := fun _ v => .ok v
    lifecycleFromDownload := fun v => .ok v }

/-- The `pid` field: forced read-only by `extra_read_only`. -/
def pidFieldSpec : GenFieldSpec :=
  { name := "pid"
    description := "Persistent identifier of the dataset."
    required := false
    upload := false
    used_by_derived := true
    used_by_raw := true
    scicat_name := "pid"
    schemaType := "PID"
    default := .vnone
    conversion := some .parse_pid
    validation := none }

/-- The `owner` field: a required writable string field. -/
def ownerFieldSpec : GenFieldSpec :=
  { name := "owner"
    description := "Owner or custodian of the dataset."
    required := true
    upload := true
    used_by_derived := true
    used_by_raw := true
    scicat_name := "owner"
    schemaType := "str"
    default := .vnone
    conversion := none
    validation := none }

/-- The `comment` field: an optional writable string field. -/
def commentFieldSpec : GenFieldSpec :=
  { name := "comment"
    description := "Comment the user has about a given dataset."
    required := false
    upload := true
    used_by_derived := true
    used_by_raw := true
    scicat_name := "comment"
    schemaType := "str"
    default := .vnone
    conversion := none
    validation := none }

/-- The `creation_time` field: required, writable, datetime-converted,
with declared default `"now"` per `dataset-fields.yml`. -/
def creationTimeFieldSpec : GenFieldSpec :=
  { name := "creation_time"
    description := "Time when dataset became fully available on disk."
    required := true
    upload := true
    used_by_derived := true
    used_by_raw := true
    scicat_name := "creationTime"
    schemaType := "datetime"
    default := .vstr "now"
    conversion := some .parse_datetime
    validation := some "datetime" }

/-- The `instrument_id` field: writable, used by raw datasets only. -/
def instrumentIdFieldSpec : GenFieldSpec :=
  { name := "instrument_id"
    description := "ID of the instrument where the data was created."
    required := false
    upload := true
    used_by_derived := false
    used_by_raw := true
    scicat_name := "instrumentId"
    schemaType := "str"
    default := .vnone
    conversion := none
    validation := none }

/-- The `input_datasets` field: writable, used by derived datasets only. -/
def inputDatasetsFieldSpec : GenFieldSpec :=
  { name := "input_datasets"
    description := "The pids of the input datasets."
    required := true
    upload := true
    used_by_derived := true
    used_by_raw := false
    scicat_name := "inputDatasets"
    schemaType := "list"
    default := .vnone
    conversion := none
    validation := none }

/-- The `packed_size` field: size-validated. -/
def packedSizeFieldSpec : GenFieldSpec :=
  { name := "packed_size"
    description := "Total size of all datablock package files."
    required := false
    upload := false
    used_by_derived := true
    used_by_raw := true
    scicat_name := "packedSize"
    schemaType := "int"
    default := .vnone
    conversion := none
    validation := some "size" }

/-! ## Claim theorems -/

/-- C4: `_parse_datetime` returns a datetime value or `None` unchanged,
resolves the literal string `"now"` to the current time in UTC, and sends
every other string through the ISO-8601 parser, whose failure on an
unparseable string is the raised error. -/
theorem parse_datetime_spec (parseISO : String → Except String PyDatetime) (clock : Int) :
    (∀ d, parse_datetime parseISO clock (.vdatetime d) = .ok (.vdatetime d)) ∧
    parse_datetime parseISO clock .vnone = .ok .vnone ∧
    parse_datetime parseISO clock (.vstr "now") =
      .ok (.vdatetime (datetime_now_utc clock)) ∧
    (∀ s, s ≠ "now" → parse_datetime parseISO clock (.vstr s) = (parseISO s).map .vdatetime) := by
  refine ⟨fun d => rfl, rfl, by simp [parse_datetime], fun s hs => ?_⟩
  simp [parse_datetime, hs]

/-- Witness for C4 at a fixed parser, clock, and inputs. -/
theorem parse_datetime_spec_witness :
    parse_datetime env0.parseISO 1700000000 .vnone = .ok .vnone ∧
    parse_datetime env0.parseISO 1700000000 (.vstr "now") =
      .ok (.vdatetime { tstamp := 1700000000, tzoffset := some 0 }) ∧
    parse_datetime env0.parseISO 1700000000 (.vstr "2024-01-01T00:00:00Z") =
      .error "ParserError: 2024-01-01T00:00:00Z" := by
  have h := parse_datetime_spec env0.parseISO 1700000000
  refine ⟨h.2.1, h.2.2.1, ?_⟩
  have h4 := h.2.2.2 "2024-01-01T00:00:00Z" (by decide)
  rw [h4]
  rfl

/-- C6: with the other `__init__` steps succeeding, a `checksum_algorithm`
string not in `hashlib.algorithms_available` makes construction raise
`ValueError`; `None` and recognized names are stored unchanged in
`_default_checksum_algorithm`. -/
theorem dataset_init_checksum_spec (env : PyEnv) (spec : List GenFieldSpec)
    (targ : DatasetTypeArg) (args : String → Option Value)
    (meta : Option (List (String × Value))) (t : DatasetType)
    (ua : List (String × Value))
    (hc : DatasetType.coerce targ = .ok t)
    (ha : uploadAssignments env ((sortByName spec).filter (·.upload)) args = .ok ua) :
    (∀ alg : String, alg ∉ env.algorithms_available →
      dataset_init env spec targ args meta (some alg) =
        .error ("Checksum algorithm not recognized: " ++ alg)) ∧
    dataset_init env spec targ args meta none =
      .ok { dtype := t
            slots := ua ++ readOnlyAssignments spec
            meta := meta.getD []
            default_checksum_algorithm := none } ∧
    (∀ alg ∈ env.algorithms_available,
      dataset_init env spec targ args meta (some alg) =
        .ok { dtype := t
              slots := ua ++ readOnlyAssignments spec
              meta := meta.getD []
              default_checksum_algorithm := some alg }) := by
  refine ⟨fun alg halg => ?_, dataset_init_eq hc ha rfl, fun alg halg => ?_⟩
  · exact dataset_init_checksum_error hc ha (by simp [validate_checksum_algorithm, halg])
  · exact dataset_init_eq hc ha (by simp [validate_checksum_algorithm, halg])

/-- Witness for C6 on a concrete empty field list and environment. -/
theorem dataset_init_checksum_spec_witness :
    dataset_init env0 [] (.dt .raw) (fun _ => none) none (some "bogus-algorithm") =
      .error "Checksum algorithm not recognized: bogus-algorithm" ∧
    dataset_init env0 [] (.dt .raw) (fun _ => none) none none =
      .ok { dtype := .raw
            slots := []
            meta := []
            default_checksum_algorithm := none } ∧
    dataset_init env0 [] (.dt .raw) (fun _ => none) none (some "md5") =
      .ok { dtype := .raw
            slots := []
            meta := []
            default_checksum_algorithm := some "md5" } := by
  have h := dataset_init_checksum_spec env0 [] (.dt .raw) (fun _ => none) none .raw [] rfl rfl
  exact ⟨h.1 "bogus-algorithm" (by decide), h.2.1, h.2.2 "md5" (by decide)⟩

theorem underscore_append_inj : Function.Injective (fun s => "_" ++ s) := by
  intro s t h
  have hd := congrArg String.data h
  simp only [String.data_append] at hd
  exact String.ext (by simpa using hd)

theorem readOnlyAssignments_vnone {spec : List GenFieldSpec} :
    ∀ p ∈ readOnlyAssignments spec, p.2 = Value.vnone := by
  intro p hp
  obtain ⟨q, _, hq⟩ := List.exists_of_mem_map hp
  rw [← hq]

/-- C1: after `DatasetBase.__init__`, every field whose `_FIELD_SPEC` entry
has `read_only=True` — including `pid` and `version`, which the field table
forces to be read-only — holds `None`, and `__init__` has no parameter for
any read-only field. -/
theorem readonly_fields_after_init (env : PyEnv) (spec : List GenFieldSpec)
    (targ : DatasetTypeArg) (args : String → Option Value)
    (meta : Option (List (String × Value))) (cks : Option String) (st : DatasetState)
    (hnd : (spec.map (·.name)).Nodup)
    (hres : ∀ f ∈ spec, f.name ≠ "type" ∧ f.name ≠ "meta" ∧ f.name ≠ "checksum_algorithm")
    (hxro : ∀ f ∈ spec, f.name ∈ extra_read_only → f.upload = false)
    (hok : dataset_init env spec targ args meta cks = .ok st) :
    (∀ f ∈ FIELD_SPEC spec, f.read_only = true →
      finalSlot st.slots ("_" ++ f.name) = some Value.vnone ∧ f.name ∉ init_params spec) ∧
    (∀ g ∈ spec, g.name ∈ extra_read_only → (genField g).read_only = true) := by
  obtain ⟨t, ua, ca, hc, ha, hv, hst⟩ := dataset_init_ok hok
  subst hst
  refine ⟨?_, fun g hg hx => by simp [genField, hxro g hg hx]⟩
  intro f hf hro
  rcases List.mem_cons.mp hf with he | hmem
  · rw [he] at hro
    exact absurd hro (by decide)
  · obtain ⟨g, hg, hgf⟩ := List.exists_of_mem_map hmem
    rw [← hgf] at hro ⊢
    have hup : g.upload = false := by
      have hx : (!g.upload) = true := hro
      simpa using hx
    have hgspec : g ∈ spec := mem_sortByName.mp hg
    constructor
    · have hkey : ("_" ++ (genField g).name) ∈ dictKeys (readOnlyAssignments spec) := by
        unfold readOnlyAssignments dictKeys
        rw [List.map_map]
        have hgfil : g ∈ (sortByName spec).filter (fun f => !f.upload) :=
          List.mem_filter.mpr ⟨hg, by simp [hup]⟩
        have := List.mem_map_of_mem
          (fun f => (Prod.fst ∘ fun f => ("_" ++ f.name, Value.vnone)) f) hgfil
        simpa [genField] using this
      have h1 : finalSlot (readOnlyAssignments spec) ("_" ++ (genField g).name) =
          some Value.vnone :=
        finalSlot_all_vnone readOnlyAssignments_vnone hkey
      show finalSlot (ua ++ readOnlyAssignments spec) ("_" ++ (genField g).name) =
        some Value.vnone
      rw [finalSlot_append, h1]
    · show (genField g).name ∉ init_params spec
      intro hin
      unfold init_params at hin
      have hgname : (genField g).name = g.name := rfl
      rw [hgname] at hin
      rcases List.mem_cons.mp hin with h1 | h2
      · exact (hres g hgspec).1 h1
      rcases List.mem_append.mp h2 with h3 | h4
      · obtain ⟨g2, hg2, hname2⟩ := List.exists_of_mem_map h3
        have hg2s : g2 ∈ sortByName spec := List.mem_of_mem_filter hg2
        have hg2up : g2.upload = true := by simpa using List.of_mem_filter hg2
        have hsortnd := sortByName_names_nodup hnd
        have heq : g2 = g := List.inj_on_of_nodup_map hsortnd hg2s hg hname2
        rw [heq] at hg2up
        rw [hg2up] at hup
        exact Bool.noConfusion hup
      · rcases List.mem_cons.mp h4 with h5 | h6
        · exact (hres g hgspec).2.1 h5
        · rcases List.mem_cons.mp h6 with h7 | h8
          · exact (hres g hgspec).2.2 h7
          · exact List.not_mem_nil _ h8

/-- Witness for C1 on a two-field spec with a read-only `pid` field. -/
theorem readonly_fields_after_init_witness :
    (∀ f ∈ FIELD_SPEC [pidFieldSpec, ownerFieldSpec], f.read_only = true →
      finalSlot (DatasetState.slots
          { dtype := .raw
            slots := [("_owner", Value.vnone), ("_pid", Value.vnone)]
            meta := []
            default_checksum_algorithm := some "blake2b" }) ("_" ++ f.name) =
        some Value.vnone ∧
      f.name ∉ init_params [pidFieldSpec, ownerFieldSpec]) ∧
    (∀ g ∈ [pidFieldSpec, ownerFieldSpec], g.name ∈ extra_read_only →
      (genField g).read_only = true) :=
  readonly_fields_after_init env0 [pidFieldSpec, ownerFieldSpec] (.dt .raw)
    (fun _ => none) none (some "blake2b")
    { dtype := .raw
      slots := [("_owner", Value.vnone), ("_pid", Value.vnone)]
      meta := []
      default_checksum_algorithm := some "blake2b" }
    (by decide) (by decide) (by decide) (by rfl)

theorem find_props_aux (rest : List PropertyDef) :
    ∀ (l : List GenFieldSpec), (l.map (·.name)).Nodup → ∀ f ∈ l,
      ((l.map (fun g => PropertyDef.mk g.name g.upload)) ++ rest).find?
        (fun p => p.pname = f.name) = some ⟨f.name, f.upload⟩
  | [], _, f, hf => absurd hf (List.not_mem_nil f)
  | g :: gs, hnd, f, hf => by
    rcases List.mem_cons.mp hf with he | ht
    · subst he
      exact List.find?_cons_of_pos _ (by simp)
    · have hne : g.name ≠ f.name := by
        intro hcon
        have hmem : g.name ∈ gs.map (·.name) := by
          rw [hcon]
          exact List.mem_map_of_mem (·.name) ht
        exact (List.nodup_cons.mp hnd).1 hmem
      rw [List.map_cons, List.cons_append, List.find?_cons_of_neg _ (by simp [hne])]
      exact find_props_aux rest gs (List.nodup_cons.mp hnd).2 f ht

/-- C2: every field with `upload=False` gets a getter but no setter, so
assigning to it raises `AttributeError` in any state; every field with
`upload=True` gets both; assigning to `type` raises `AttributeError`. -/
theorem property_setter_spec (spec : List GenFieldSpec)
    (hnd : (spec.map (·.name)).Nodup)
    (hres : ∀ f ∈ spec, f.name ≠ "meta" ∧ f.name ≠ "type") :
    (∀ f ∈ spec,
      ({ pname := f.name, hasSetter := f.upload } : PropertyDef) ∈ generated_properties spec ∧
      (f.upload = false → setattr_result (generated_properties spec) f.name = .attributeError) ∧
      (f.upload = true → setattr_result (generated_properties spec) f.name = .ok)) ∧
    setattr_result (generated_properties spec) "type" = .attributeError := by
  have hsortnd := sortByName_names_nodup hnd
  constructor
  · intro f hf
    have hfs : f ∈ sortByName spec := mem_sortByName.mpr hf
    have hfind :
        (generated_properties spec).find? (fun p => p.pname = f.name) =
          some ⟨f.name, f.upload⟩ := by
      unfold generated_properties
      exact find_props_aux _ (sortByName spec) hsortnd f hfs
    refine ⟨?_, fun h0 => ?_, fun h1 => ?_⟩
    · unfold generated_properties
      exact List.mem_append_left _
        (List.mem_map_of_mem (fun g => PropertyDef.mk g.name g.upload) hfs)
    · unfold setattr_result
      rw [hfind, h0]
      rfl
    · unfold setattr_result
      rw [hfind, h1]
      rfl
  · unfold setattr_result generated_properties
    have hnone : ((sortByName spec).map (fun g => PropertyDef.mk g.name g.upload)).find?
        (fun p => p.pname = "type") = none := by
      rw [List.find?_eq_none]
      intro p hp
      obtain ⟨g, hg, hgp⟩ := List.exists_of_mem_map hp
      have : g.name ≠ "type" := (hres g (mem_sortByName.mp hg)).2
      simp [← hgp, this]
    rw [List.find?_append, hnone]
    rfl

/-- Witness for C2 on a two-field spec with read-only `pid` and writable
`owner`. -/
theorem property_setter_spec_witness :
    (({ pname := "pid", hasSetter := false } : PropertyDef) ∈
        generated_properties [pidFieldSpec, ownerFieldSpec] ∧
      setattr_result (generated_properties [pidFieldSpec, ownerFieldSpec]) "pid" =
        .attributeError) ∧
    setattr_result (generated_properties [pidFieldSpec, ownerFieldSpec]) "owner" = .ok ∧
    setattr_result (generated_properties [pidFieldSpec, ownerFieldSpec]) "type" =
      .attributeError := by
  have h := property_setter_spec [pidFieldSpec, ownerFieldSpec] (by decide) (by decide)
  have hpid := h.1 pidFieldSpec (by decide)
  have howner := h.1 ownerFieldSpec (by decide)
  exact ⟨⟨hpid.1, hpid.2.1 rfl⟩, howner.2.2 rfl, h.2⟩

/-- C10: a Dataset constructed without passing `creation_time` stores the
current UTC time in its `_creation_time` slot — the declared default is
the string `"now"`, which `_parse_datetime` resolves — not `None`. -/
theorem creation_time_default_spec (env : PyEnv) (spec : List GenFieldSpec)
    (targ : DatasetTypeArg) (args : String → Option Value)
    (meta : Option (List (String × Value))) (cks : Option String) (st : DatasetState)
    (f : GenFieldSpec) (hf : f ∈ spec)
    (hname : f.name = "creation_time")
    (hup : f.upload = true)
    (hdef : f.default = Value.vstr "now")
    (hconv : f.conversion = some ConvKind.parse_datetime)
    (hnd : (spec.map (·.name)).Nodup)
    (hargs : args "creation_time" = none)
    (hok : dataset_init env spec targ args meta cks = .ok st) :
    finalSlot st.slots "_creation_time" =
      some (Value.vdatetime (datetime_now_utc env.clock)) ∧
    finalSlot st.slots "_creation_time" ≠ some Value.vnone := by
  obtain ⟨t, ua, ca, hc, ha, hv, hst⟩ := dataset_init_ok hok
  subst hst
  have hsortnd := sortByName_names_nodup hnd
  have hfs : f ∈ (sortByName spec).filter (·.upload) :=
    List.mem_filter.mpr ⟨mem_sortByName.mpr hf, by simp [hup]⟩
  obtain ⟨v, hconv_v, hmem⟩ := uploadAssignments_mem ha f hfs
  have hcv : convertFieldValue env f ((args f.name).getD f.default) =
      .ok (Value.vdatetime (datetime_now_utc env.clock)) := by
    rw [hname, hargs]
    simp [convertFieldValue, hconv, hdef, applyConversion, parse_datetime]
  rw [hconv_v] at hcv
  injection hcv with hveq
  subst hveq
  have hkeyeq : "_" ++ f.name = "_creation_time" := by
    rw [hname]
    rfl
  have hnotra : "_creation_time" ∉ dictKeys (readOnlyAssignments spec) := by
    intro hcon
    unfold readOnlyAssignments dictKeys at hcon
    rw [List.map_map] at hcon
    obtain ⟨g, hg, hgn⟩ := List.exists_of_mem_map hcon
    have hgname : g.name = "creation_time" := by
      apply underscore_append_inj
      show "_" ++ g.name = "_" ++ "creation_time"
      exact hgn
    have hgs : g ∈ sortByName spec := List.mem_of_mem_filter hg
    have hgup : (!g.upload) = true := by simpa using List.of_mem_filter hg
    have heqf : g = f :=
      List.inj_on_of_nodup_map hsortnd hgs (mem_sortByName.mpr hf) (by rw [hgname, hname])
    rw [heqf, hup] at hgup
    exact Bool.noConfusion hgup
  have hkeysua : ua.map (·.1) =
      ((sortByName spec).filter (·.upload)).map (fun g => "_" ++ g.name) :=
    uploadAssignments_keys ha
  have hkeysnd : (ua.map (·.1)).Nodup := by
    rw [hkeysua]
    have hfilnames : (((sortByName spec).filter (·.upload)).map (·.name)).Nodup := by
      refine hsortnd.sublist ?_
      exact (List.filter_sublist (sortByName spec)).map (·.name)
    have : ((sortByName spec).filter (·.upload)).map (fun g => "_" ++ g.name) =
        (((sortByName spec).filter (·.upload)).map (·.name)).map (fun s => "_" ++ s) := by
      rw [List.map_map]
      rfl
    rw [this]
    exact hfilnames.map underscore_append_inj
  have hfin : finalSlot ua "_creation_time" =
      some (Value.vdatetime (datetime_now_utc env.clock)) := by
    rw [← hkeyeq]
    exact finalSlot_eq_of_mem_nodup hkeysnd hmem
  have hall : finalSlot (ua ++ readOnlyAssignments spec) "_creation_time" =
      some (Value.vdatetime (datetime_now_utc env.clock)) := by
    rw [finalSlot_append, finalSlot_eq_none hnotra, hfin]
  exact ⟨hall, by rw [hall]; simp⟩

/-- Witness for C10 on a one-field spec holding only `creation_time`. -/
theorem creation_time_default_spec_witness :
    finalSlot (DatasetState.slots
        { dtype := .raw
          slots := [("_creation_time",
            Value.vdatetime { tstamp := 1700000000, tzoffset := some 0 })]
          meta := []
          default_checksum_algorithm := some "blake2b" }) "_creation_time" =
      some (Value.vdatetime { tstamp := 1700000000, tzoffset := some 0 }) ∧
    finalSlot (DatasetState.slots
        { dtype := .raw
          slots := [("_creation_time",
            Value.vdatetime { tstamp := 1700000000, tzoffset := some 0 })]
          meta := []
          default_checksum_algorithm := some "blake2b" }) "_creation_time" ≠
      some Value.vnone :=
  creation_time_default_spec env0 [creationTimeFieldSpec] (.dt .raw) (fun _ => none)
    none (some "blake2b")
    { dtype := .raw
      slots := [("_creation_time",
        Value.vdatetime { tstamp := 1700000000, tzoffset := some 0 })]
      meta := []
      default_checksum_algorithm := some "blake2b" }
    creationTimeFieldSpec (by decide) rfl rfl rfl rfl (by decide) rfl (by rfl)

theorem emapError_ok {α ε ε2 : Type} (a : α) (f : ε → ε2) :
    (Except.ok a : Except ε α).mapError f = Except.ok a := rfl

theorem emapError_error {α ε ε2 : Type} (e : ε) (f : ε → ε2) :
    (Except.error e : Except ε α).mapError f = (Except.error (f e) : Except ε2 α) := rfl

theorem pydantic_init_ok_collect {mfs : List ModelField} {provided : String → Option Value}
    {out : List (String × Value)} (h : pydantic_init mfs provided = .ok out) :
    collectVals (fun m => (validate_typed m.ftype ((provided m.pyName).getD Value.vnone)).map
      (fun v => (m.pyName, v))) mfs = .ok out := by
  unfold pydantic_init at h
  by_cases he : (missing_fields mfs provided).isEmpty = true
  · rw [if_pos he] at h
    cases hc : collectVals (fun m =>
        (validate_typed m.ftype ((provided m.pyName).getD Value.vnone)).map
          (fun v => (m.pyName, v))) mfs with
    | error e =>
      rw [hc, emapError_error] at h
      exact Except.noConfusion h
    | ok out2 =>
      rw [hc, emapError_ok] at h
      injection h with h2
      rw [h2]
  · rw [if_neg he] at h
    exact Except.noConfusion h

theorem collectVals_all_ok (g : ModelField → Except String (String × Value))
    (h2 : ModelField → String × Value) :
    ∀ (l : List ModelField), (∀ m ∈ l, g m = .ok (h2 m)) →
      collectVals g l = .ok (l.map h2)
  | [], _ => rfl
  | m :: ms, hall => by
    unfold collectVals
    rw [hall m (List.mem_cons_self m ms), ebind_ok,
      collectVals_all_ok g h2 ms (fun x hx => hall x (List.mem_cons_of_mem m hx))]
    rfl

/-- C3: in the generated upload models every required field is declared
without a default, so building the model with that field unset fails with
an error naming exactly that field, while every non-required field is
declared with default `None` and takes the value `None` when unset. -/
theorem upload_model_required_spec (fields : List GenFieldSpec)
    (provided : String → Option Value) :
    ∀ f ∈ fields,
      (f.required = true → provided (pyNameOf f) = none →
        ∃ errs, pydantic_init (fields.map (model_field .upload)) provided = .error errs ∧
          pyNameOf f ∈ errs) ∧
      (f.required = false →
        (model_field .upload f).hasDefaultNone = true ∧
        ∀ out, pydantic_init (fields.map (model_field .upload)) provided = .ok out →
          provided (pyNameOf f) = none → (pyNameOf f, Value.vnone) ∈ out) := by
  intro f hf
  have hmf : model_field .upload f ∈ fields.map (model_field .upload) :=
    List.mem_map_of_mem (model_field .upload) hf
  constructor
  · intro hreq hmiss
    have hdfl : (model_field .upload f).hasDefaultNone = false := by
      simp [model_field, hreq]
    have hmfmiss : model_field .upload f ∈
        missing_fields (fields.map (model_field .upload)) provided := by
      unfold missing_fields
      refine List.mem_filter.mpr ⟨hmf, ?_⟩
      have hpy : (model_field .upload f).pyName = pyNameOf f := rfl
      simp [hdfl, hpy, hmiss]
    have hne : ¬(missing_fields (fields.map (model_field .upload)) provided).isEmpty = true := by
      rw [List.isEmpty_iff]
      exact List.ne_nil_of_mem hmfmiss
    refine ⟨(missing_fields (fields.map (model_field .upload)) provided).map (·.pyName),
      ?_, ?_⟩
    · unfold pydantic_init
      rw [if_neg hne]
    · exact List.mem_map_of_mem (·.pyName) hmfmiss
  · intro hreq
    refine ⟨by simp [model_field, hreq], fun out hout hmiss => ?_⟩
    have hcol := pydantic_init_ok_collect hout
    obtain ⟨b, hb, hbm⟩ := collectVals_mem hcol (model_field .upload f) hmf
    have hpy : (model_field .upload f).pyName = pyNameOf f := rfl
    have hgmf : (validate_typed (model_field .upload f).ftype
        ((provided (model_field .upload f).pyName).getD Value.vnone)).map
        (fun v => ((model_field .upload f).pyName, v)) =
        .ok (pyNameOf f, Value.vnone) := by
      rw [hpy, hmiss]
      show (validate_typed (model_field .upload f).ftype Value.vnone).map _ = _
      rw [validate_typed_vnone, except_map_ok]
    rw [hgmf] at hb
    injection hb with hbeq
    rw [← hbeq] at hbm
    exact hbm

/-- Witness for C3: a required `owner` field missing, and an optional
`comment` field defaulting to `None`. -/
theorem upload_model_required_spec_witness :
    (∃ errs, pydantic_init ([ownerFieldSpec, commentFieldSpec].map (model_field .upload))
        (fun _ => none) = .error errs ∧ "owner" ∈ errs) ∧
    (model_field .upload commentFieldSpec).hasDefaultNone = true := by
  have h := upload_model_required_spec [ownerFieldSpec, commentFieldSpec] (fun _ => none)
  have howner := (h ownerFieldSpec (by decide)).1 rfl rfl
  have hcomment := (h commentFieldSpec (by decide)).2 rfl
  exact ⟨howner, hcomment.1⟩

/-- C9: every generated download-model field — required or not — is
declared with default `None`, so a download model can be constructed from
a response missing any subset of fields, with the missing ones `None`. -/
theorem download_model_defaults_spec (fields : List GenFieldSpec) :
    (∀ f ∈ fields, (model_field .download f).hasDefaultNone = true) ∧
    (∀ provided : String → Option Value,
      missing_fields (fields.map (model_field .download)) provided = []) ∧
    pydantic_init (fields.map (model_field .download)) (fun _ => none) =
      .ok ((fields.map (model_field .download)).map (fun m => (m.pyName, Value.vnone))) := by
  have hdfl : ∀ f ∈ fields, (model_field .download f).hasDefaultNone = true := by
    intro f _
    simp [model_field]
  have hfil : ∀ provided : String → Option Value,
      missing_fields (fields.map (model_field .download)) provided = [] := by
    intro provided
    unfold missing_fields
    rw [List.filter_eq_nil_iff]
    intro m hm
    obtain ⟨f, hf, hfm⟩ := List.exists_of_mem_map hm
    rw [← hfm]
    simp [hdfl f hf]
  refine ⟨hdfl, hfil, ?_⟩
  have hall : ∀ m ∈ fields.map (model_field .download),
      (validate_typed m.ftype
          (((fun _ => none : String → Option Value) m.pyName).getD Value.vnone)).map
        (fun v => (m.pyName, v)) = .ok (m.pyName, Value.vnone) := by
    intro m _
    show (validate_typed m.ftype Value.vnone).map _ = _
    rw [validate_typed_vnone, except_map_ok]
  unfold pydantic_init
  rw [hfil (fun _ => none), if_pos (by rfl : ([] : List ModelField).isEmpty = true),
    collectVals_all_ok _ (fun m => (m.pyName, Value.vnone))
      (fields.map (model_field .download)) hall, emapError_ok]

/-- Witness for C9 on a concrete two-field download model. -/
theorem download_model_defaults_spec_witness :
    (model_field .download ownerFieldSpec).hasDefaultNone = true ∧
    pydantic_init ([ownerFieldSpec, pidFieldSpec].map (model_field .download))
        (fun _ => none) =
      .ok [("owner", Value.vnone), ("pid", Value.vnone)] := by
  have h := download_model_defaults_spec [ownerFieldSpec, pidFieldSpec]
  exact ⟨h.1 ownerFieldSpec (by decide), h.2.2⟩

/-- C5: the fields tagged `size` in `field-validations.yml` are exactly
Dataset's `numberOfFiles`, `numberOfFilesArchived`, `packedSize` and
`size`, DataFile's `size`, Datablock's `packedSize` and `size`, and
OrigDatablock's `size`; a size-tagged field is typed `NonNegativeInt` in
the generated pydantic models, and model validation of such a field
rejects every negative integer and accepts every non-negative integer
unchanged. -/
theorem size_fields_spec :
    sizeTagged = [("Dataset", "numberOfFiles"), ("Dataset", "numberOfFilesArchived"),
      ("Dataset", "packedSize"), ("Dataset", "size"), ("DataFile", "size"),
      ("Datablock", "packedSize"), ("Datablock", "size"), ("OrigDatablock", "size")] ∧
    (∀ (f : GenFieldSpec) (k : ModelKind), f.validation = some "size" →
      (model_field k f).ftype = "NonNegativeInt") ∧
    (∀ n : Int, n < 0 →
      validate_typed "NonNegativeInt" (.vint n) =
        .error "ValidationError: input should be greater than or equal to 0") ∧
    (∀ n : Int, 0 ≤ n →
      validate_typed "NonNegativeInt" (.vint n) = .ok (.vint n)) ∧
    (∀ (fields : List GenFieldSpec) (f : GenFieldSpec) (k : ModelKind)
        (provided : String → Option Value) (n : Int),
      f ∈ fields → f.validation = some "size" → n < 0 →
      provided (pyNameOf f) = some (.vint n) →
      ∃ errs, pydantic_init (fields.map (model_field k)) provided = .error errs) := by
  refine ⟨by decide, fun f k hsz => ?_, fun n hn => ?_, fun n hn => ?_, ?_⟩
  · simp [model_field, full_type_for, hsz]
  · simp [validate_typed, hn]
  · simp [validate_typed, not_lt.mpr hn]
  · intro fields f k provided n hf hsz hn hprov
    by_cases he : (missing_fields (fields.map (model_field k)) provided).isEmpty = true
    · have hmf : model_field k f ∈ fields.map (model_field k) :=
        List.mem_map_of_mem (model_field k) hf
      have hgerr : (validate_typed (model_field k f).ftype
          ((provided (model_field k f).pyName).getD Value.vnone)).map
          (fun v => ((model_field k f).pyName, v)) =
          .error "ValidationError: input should be greater than or equal to 0" := by
        have hpy : (model_field k f).pyName = pyNameOf f := rfl
        have hty : (model_field k f).ftype = "NonNegativeInt" := by
          simp [model_field, full_type_for, hsz]
        rw [hpy, hprov, hty]
        show (validate_typed "NonNegativeInt" (.vint n)).map _ = _
        rw [show validate_typed "NonNegativeInt" (.vint n) =
          .error "ValidationError: input should be greater than or equal to 0" by
            simp [validate_typed, hn]]
        rfl
      obtain ⟨e2, hcol⟩ := @collectVals_error_of_mem
        (fun m => (validate_typed m.ftype ((provided m.pyName).getD Value.vnone)).map
          (fun v => (m.pyName, v)))
        (fields.map (model_field k)) (model_field k f) _ hmf hgerr
      refine ⟨[e2], ?_⟩
      unfold pydantic_init
      rw [if_pos he, hcol]
      rfl
    · refine ⟨(missing_fields (fields.map (model_field k)) provided).map (·.pyName), ?_⟩
      unfold pydantic_init
      rw [if_neg he]

/-- Witness for C5: a negative `packedSize` is rejected, a non-negative
one is accepted. -/
theorem size_fields_spec_witness :
    (model_field .download packedSizeFieldSpec).ftype = "NonNegativeInt" ∧
    validate_typed "NonNegativeInt" (.vint (-7)) =
      .error "ValidationError: input should be greater than or equal to 0" ∧
    validate_typed "NonNegativeInt" (.vint 42) = .ok (.vint 42) := by
  have h := size_fields_spec
  exact ⟨h.2.1 packedSizeFieldSpec .download rfl, h.2.2.1 (-7) (by decide),
    h.2.2.2.1 42 (by decide)⟩

theorem model_field_pyName (k : ModelKind) (f : GenFieldSpec) :
    (model_field k f).pyName = pyNameOf f := rfl

theorem upload_dataset_model_names (spec : List GenFieldSpec) (t : DatasetType) :
    (upload_dataset_model_fields spec t).map (·.pyName) =
      (dset_fields_for_upload spec t).map pyNameOf := by
  unfold upload_dataset_model_fields
  rw [List.map_map]
  rfl

/-- C7: `Field.used_by` returns `used_by_raw` for the raw dataset type and
`used_by_derived` otherwise, and the generated `UploadRawDataset` /
`UploadDerivedDataset` classes contain exactly the upload fields used by
the corresponding type, so a field used only by the other type is absent
from the model. -/
theorem used_by_upload_models_spec (spec : List GenFieldSpec)
    (hnd : (spec.map pyNameOf).Nodup) :
    (∀ f : Field, f.used_by .raw = f.used_by_raw ∧ f.used_by .derived = f.used_by_derived) ∧
    (∀ f ∈ spec, f.upload = true →
      ((pyNameOf f ∈ (upload_dataset_model_fields spec .raw).map (·.pyName)) ↔
        f.used_by_raw = true) ∧
      ((pyNameOf f ∈ (upload_dataset_model_fields spec .derived).map (·.pyName)) ↔
        f.used_by_derived = true)) := by
  constructor
  · intro f
    exact ⟨rfl, rfl⟩
  · intro f hf hup
    have hgen : ∀ t : DatasetType,
        (pyNameOf f ∈ (upload_dataset_model_fields spec t).map (·.pyName)) ↔
          (f.upload && (if t = DatasetType.raw then f.used_by_raw
            else f.used_by_derived)) = true := by
      intro t
      rw [upload_dataset_model_names]
      unfold dset_fields_for_upload
      constructor
      · intro hmem
        obtain ⟨g, hg, hgn⟩ := List.exists_of_mem_map hmem
        have hgs : g ∈ spec := List.mem_of_mem_filter hg
        have heq : g = f := List.inj_on_of_nodup_map hnd hgs hf hgn
        have hpred := List.of_mem_filter hg
        rw [heq] at hpred
        simpa using hpred
      · intro hpred
        exact List.mem_map_of_mem pyNameOf
          (List.mem_filter.mpr ⟨hf, by simpa using hpred⟩)
    constructor
    · rw [hgen DatasetType.raw]
      simp [hup]
    · rw [hgen DatasetType.derived]
      simp [hup]

/-- Witness for C7: `instrument_id` (raw-only) is in the raw model but not
the derived one; `input_datasets` (derived-only) the other way around. -/
theorem used_by_upload_models_spec_witness :
    ((genField instrumentIdFieldSpec).used_by .raw = true ∧
      (genField instrumentIdFieldSpec).used_by .derived = false) ∧
    ("instrumentId" ∈ (upload_dataset_model_fields
        [instrumentIdFieldSpec, inputDatasetsFieldSpec] .raw).map (·.pyName) ∧
      "instrumentId" ∉ (upload_dataset_model_fields
        [instrumentIdFieldSpec, inputDatasetsFieldSpec] .derived).map (·.pyName)) ∧
    ("inputDatasets" ∉ (upload_dataset_model_fields
        [instrumentIdFieldSpec, inputDatasetsFieldSpec] .raw).map (·.pyName) ∧
      "inputDatasets" ∈ (upload_dataset_model_fields
        [instrumentIdFieldSpec, inputDatasetsFieldSpec] .derived).map (·.pyName)) := by
  have h := used_by_upload_models_spec [instrumentIdFieldSpec, inputDatasetsFieldSpec]
    (by decide)
  have hinst := h.2 instrumentIdFieldSpec (by decide) rfl
  have hinp := h.2 inputDatasetsFieldSpec (by decide) rfl
  refine ⟨⟨rfl, rfl⟩, ⟨?_, ?_⟩, ⟨?_, ?_⟩⟩
  · exact hinst.1.mpr rfl
  · intro hcon
    exact Bool.noConfusion (hinst.2.mp hcon)
  · intro hcon
    exact Bool.noConfusion (hinp.1.mp hcon)
  · exact hinp.2.mpr rfl

theorem mem_dictKeys_of_mem {l : List (String × Value)} {k : String} {v : Value}
    (h : (k, v) ∈ l) : k ∈ dictKeys l :=
  List.mem_map_of_mem (·.1) h

/-- C8: `_prepare_fields_from_download` reads, for every `_FIELD_SPEC`
field, the download-model attribute named by its `scicat_name`, and
partitions the values: read-only fields into the `read_only` dict under
the underscore-prefixed field name, writable present fields into
`init_args` under the field name — so a Dataset rebuilt from a download
model carries every field of the model, the server-assigned ones
included. -/
theorem prepare_download_partition_spec (env : PyEnv) (spec : List GenFieldSpec)
    (dm : String → Option Value) (ia ro ia0 ro0 : List (String × Value))
    (hp : prepare_fields_from_download env spec dm = .ok (ia, ro))
    (hl : prepare_loop dm (FIELD_SPEC spec) = .ok (ia0, ro0)) :
    ∀ f ∈ FIELD_SPEC spec,
      (f.read_only = true →
        (dm f.scicat_name).isSome = true ∧
        (∀ v, dm f.scicat_name = some v → ("_" ++ f.name, v) ∈ ro0) ∧
        ("_" ++ f.name) ∈ dictKeys ro) ∧
      (f.read_only = false → ∀ v, dm f.scicat_name = some v →
        ((f.name, v) ∈ ia0 ∧ f.name ∈ dictKeys ia)) := by
  obtain ⟨ia1, ro1, sm, hl1, hsm, hconv⟩ := prepare_fields_ok hp
  rw [hl] at hl1
  injection hl1 with hpair
  injection hpair with h1 h2
  subst h1
  subst h2
  have mono := convert_download_keys_mono hconv
  intro f hf
  have hpm := prepare_loop_mem hl f hf
  constructor
  · intro hro
    obtain ⟨v, hv, hvm⟩ := hpm.1 hro
    refine ⟨by rw [hv]; rfl, fun v2 hv2 => ?_, ?_⟩
    · rw [hv] at hv2
      injection hv2 with hveq
      rw [← hveq]
      exact hvm
    · exact mono.2 _ (mem_dictKeys_of_mem hvm)
  · intro hro v hv
    have him := hpm.2 hro v hv
    exact ⟨him, mono.1 _ (dictKeys_dictSet (mem_dictKeys_of_mem him))⟩

/-- A concrete download model: `type`, `owner`, `pid` and
`scientificMetadata` are present, everything else is absent. -/
def dm0 : String → Option Value := fun s =>
  if s = "type" then some (.vstr "raw")
  else if s = "owner" then some (.vstr "alice")
  else if s = "pid" then some (.vstr "prefix/123")
  else if s = "scientificMetadata" then some .vnone
  else none

/-- Witness for C8 on a two-field spec and the concrete download model. -/
theorem prepare_download_partition_spec_witness :
    ("_" ++ (genField pidFieldSpec).name, Value.vstr "prefix/123") ∈
      [("_pid", Value.vstr "prefix/123")] ∧
    ("_" ++ (genField pidFieldSpec).name) ∈
      dictKeys [("_pid", Value.vstr "prefix/123"), ("_pid", Value.vstr "prefix/123")] ∧
    ((genField ownerFieldSpec).name, Value.vstr "alice") ∈
      [("type", Value.vstr "raw"), ("owner", Value.vstr "alice")] := by
  have h := prepare_download_partition_spec env0 [pidFieldSpec, ownerFieldSpec] dm0
    [("type", Value.vstr "raw"), ("owner", Value.vstr "alice"), ("meta", Value.vnone),
      ("techniques", Value.vnone), ("relationships", Value.vnone)]
    [("_pid", Value.vstr "prefix/123"), ("_pid", Value.vstr "prefix/123")]
    [("type", Value.vstr "raw"), ("owner", Value.vstr "alice")]
    [("_pid", Value.vstr "prefix/123")]
    (by rfl) (by rfl)
  have hmem1 : genField pidFieldSpec ∈ FIELD_SPEC [pidFieldSpec, ownerFieldSpec] := by
    unfold FIELD_SPEC
    exact List.mem_cons_of_mem _ (List.mem_map_of_mem genField (by decide))
  have hmem2 : genField ownerFieldSpec ∈ FIELD_SPEC [pidFieldSpec, ownerFieldSpec] := by
    unfold FIELD_SPEC
    exact List.mem_cons_of_mem _ (List.mem_map_of_mem genField (by decide))
  have hpid := (h (genField pidFieldSpec) hmem1).1 rfl
  have howner := (h (genField ownerFieldSpec) hmem2).2 rfl (Value.vstr "alice") (by rfl)
  exact ⟨hpid.2.1 (Value.vstr "prefix/123") (by rfl), hpid.2.2, howner.1⟩

end Scitacean
